import Mathlib

/-!
Verification of the build-orchestration core of a package-documentation
hosting service.  The development shallowly embeds three source modules:

* `src/docbuilder/metadata/lib.rs` — the build-configuration resolver
  (`Metadata`, `BuildTargets`, target and cargo-argument resolution,
  lenient TOML-table extraction);
* `src/docbuilder/chroot_builder.rs` — the sandboxed build executor
  (`DocBuilder::build_package`, `build_package_in_chroot`, `clean`,
  `parse_rustc_version`, `build_world`), modelled with an explicit
  effect trace and an environment of external-collaborator outcomes;
* `src/utils/queue_builder.rs` — the supervisory queue-worker loop,
  modelled as one loop iteration over an observation environment.

Machine strings are Lean `String`s; fallible operations return
`Option`/`Except`; panics are modelled as `none` at the outermost level.
-/

/- ===================================================================
   Part 1: the build-configuration resolver (`metadata/lib.rs`)
   =================================================================== -/

/-- `DEFAULT_TARGETS` from `metadata/lib.rs`: the targets that are built
if no `targets` section is specified. -/
def DEFAULT_TARGETS : List String :=
  ["i686-pc-windows-msvc",
   "i686-unknown-linux-gnu",
   "x86_64-apple-darwin",
   "x86_64-pc-windows-msvc",
   "x86_64-unknown-linux-gnu"]

/-- The `Metadata` struct of `metadata/lib.rs`: the subset of a package's
manifest relevant to building its documentation. -/
structure Metadata where
  features : Option (List String)
  all_features : Bool
  no_default_features : Bool
  default_target : Option String
  targets : Option (List String)
  rustc_args : Option (List String)
  rustdoc_args : Option (List String)
deriving DecidableEq

/-- `Metadata::default()`: every optional field absent, every flag false. -/
def Metadata.default : Metadata :=
  { features := none
    all_features := false
    no_default_features := false
    default_target := none
    targets := none
    rustc_args := none
    rustdoc_args := none }

/-- The `BuildTargets` struct: resolved default target plus the remaining
targets to build.  The source stores `other_targets` in a `HashSet`,
modelled here as a `Finset`. -/
structure BuildTargets where
  default_target : String
  other_targets : Finset String
deriving DecidableEq

/-- `Metadata::targets()` (named `build_targets` here because the Lean
structure already has a field called `targets`).  `host` stands for the
compile-time constant `HOST_TARGET`, the orchestrator's own platform
triple. -/
def Metadata.build_targets (host : String) (m : Metadata) : BuildTargets :=
  let default_target :=
    ((m.default_target).orElse
      (fun _ => (m.targets).bind (fun targets => targets.head?))).getD host
  let targets : Finset String :=
    ((m.targets).getD DEFAULT_TARGETS).toFinset
  { default_target := default_target
    other_targets := targets.erase default_target }

/-- `Metadata::cargo_args()`: sequential, append-only construction of the
cargo command line, mirroring the source's `push` sequence. -/
def Metadata.cargo_args (m : Metadata) : List String :=
  let args := ["doc", "--lib", "--no-deps"]
  let args :=
    match m.features with
    | some features => args ++ ["--features", String.intercalate " " features]
    | none => args
  let args := if m.all_features then args ++ ["--all-features"] else args
  let args := if m.no_default_features then args ++ ["--no-default-features"] else args
  args

/- ===================================================================
   Part 2: lenient manifest-fragment extraction (`Metadata::from_str`)

   `from_str` first runs the external `toml` crate parser over the raw
   manifest text and then extracts the `[package.metadata.docs.rs]`
   table from the resulting value.  The text-level parser is an external
   collaborator; it is a parameter below.  The value-level extraction is
   repository code and is embedded faithfully.
   =================================================================== -/

/-- A TOML value (the shape of `toml::Value` that the extraction code
inspects).  Tables are association lists. -/
inductive Toml where
  | str (s : String)
  | boolean (b : Bool)
  | int (n : Int)
  | arr (elems : List Toml)
  | table (entries : List (String × Toml))

/-- `Map::get`: first binding for a key in a table. -/
def lookupKey : List (String × Toml) → String → Option Toml
  | [], _ => none
  | (k, v) :: rest, key => if k = key then some v else lookupKey rest key

/-- `Value::as_str`. -/
def Toml.as_str : Toml → Option String
  | .str s => some s
  | _ => none

/-- `Value::as_bool`. -/
def Toml.as_bool : Toml → Option Bool
  | .boolean b => some b
  | _ => none

/-- `Value::as_array`. -/
def Toml.as_array : Toml → Option (List Toml)
  | .arr l => some l
  | _ => none

/-- `Value::as_table`. -/
def Toml.as_table : Toml → Option (List (String × Toml))
  | .table m => some m
  | _ => none

/-- `Value::get` on a value (lookup when the value is a table). -/
def Toml.get : Toml → String → Option Toml
  | .table m, key => lookupKey m key
  | _, _ => none

/-- `fetch_manifest_tables`: walk
`package` → `metadata` → `docs` → `rs`, requiring a table at each step. -/
def fetch_manifest_tables (manifest : Toml) : Option (List (String × Toml)) := do
  let p ← manifest.get "package"
  let pt ← p.as_table
  let m ← lookupKey pt "metadata"
  let mt ← m.as_table
  let d ← lookupKey mt "docs"
  let dt ← d.as_table
  let r ← lookupKey dt "rs"
  r.as_table

/-- `collect_into_array`: `f.iter().map(|v| v.as_str()).collect()` over
`Option<Vec<String>>` — `none` as soon as any element is not a string. -/
def collect_into_array : List Toml → Option (List String)
  | [] => some []
  | v :: rest =>
    match v.as_str with
    | none => none
    | some s => (collect_into_array rest).map (fun l => s :: l)

/-- The body of `Metadata::from_str` after the text has been parsed into
a TOML value: start from `Metadata::default()` and overwrite each field
from the `[package.metadata.docs.rs]` table, ignoring wrongly-typed
entries. -/
def Metadata.from_toml_value (manifest : Toml) : Metadata :=
  let metadata := Metadata.default
  match fetch_manifest_tables manifest with
  | none => metadata
  | some table =>
    { metadata with
      features := ((lookupKey table "features").bind Toml.as_array).bind collect_into_array
      no_default_features :=
        ((lookupKey table "no-default-features").bind Toml.as_bool).getD
          metadata.no_default_features
      all_features :=
        ((lookupKey table "all-features").bind Toml.as_bool).getD metadata.all_features
      default_target := (lookupKey table "default-target").bind Toml.as_str
      targets := ((lookupKey table "targets").bind Toml.as_array).bind collect_into_array
      rustc_args := ((lookupKey table "rustc-args").bind Toml.as_array).bind collect_into_array
      rustdoc_args :=
        ((lookupKey table "rustdoc-args").bind Toml.as_array).bind collect_into_array }

/-- `Metadata::from_str`, parameterised by the external TOML text parser
(the `manifest.parse::<Value>()?` step of the `toml` crate). -/
def Metadata.from_str (parseToml : String → Except String Toml) (manifest : String) :
    Except String Metadata :=
  (parseToml manifest).map Metadata.from_toml_value

/- ===================================================================
   Part 3: toolchain version-string parsing (`parse_rustc_version`)

   The source matches the regex  " ([\w-.]+) \((\w+) (\d+)-(\d+)-(\d+)\)"
   against the toolchain's self-reported banner and re-emits
   "{date-digits}-{group1}-{group2}".  Group 1 is the token between the
   first separating space and " (" — the VERSION token, not the tool
   name.  The matcher below is a deterministic transcription: each
   greedy character-class run is a maximal munch (safe, because every
   character class excludes the literal that follows it), and match
   starting positions are scanned left to right.  The source panics
   (`expect`) when no match exists; that is modelled as `none`.
   =================================================================== -/

/-- `\w` of the source regex (ASCII word character). -/
def isWordChar (c : Char) : Bool := c.isAlphanum || c == '_'

/-- `[\w-.]` of the source regex: word characters, dash and dot. -/
def isVersionChar (c : Char) : Bool := isWordChar c || c == '-' || c == '.'

/-- The five capture groups of the version regex. -/
structure VersionGroups where
  ver : List Char
  hash : List Char
  year : List Char
  month : List Char
  day : List Char
deriving DecidableEq

/-- Try to match the regex body (everything after the leading space)
at the head of `l`:
`([\w-.]+) \((\w+) (\d+)-(\d+)-(\d+)\)`. -/
def tryBodyAt (l : List Char) : Option VersionGroups :=
  if (l.takeWhile isVersionChar).isEmpty then none
  else match l.dropWhile isVersionChar with
  | ' ' :: '(' :: r2 =>
    if (r2.takeWhile isWordChar).isEmpty then none
    else match r2.dropWhile isWordChar with
    | ' ' :: r4 =>
      if (r4.takeWhile Char.isDigit).isEmpty then none
      else match r4.dropWhile Char.isDigit with
      | '-' :: r6 =>
        if (r6.takeWhile Char.isDigit).isEmpty then none
        else match r6.dropWhile Char.isDigit with
        | '-' :: r8 =>
          if (r8.takeWhile Char.isDigit).isEmpty then none
          else match r8.dropWhile Char.isDigit with
          | ')' :: _ =>
            some ⟨l.takeWhile isVersionChar, r2.takeWhile isWordChar,
                  r4.takeWhile Char.isDigit, r6.takeWhile Char.isDigit,
                  r8.takeWhile Char.isDigit⟩
          | _ => none
        | _ => none
      | _ => none
    | _ => none
  | _ => none

/-- Leftmost match: scan starting positions left to right; the pattern
begins with a literal space. -/
def findMatch : List Char → Option VersionGroups
  | [] => none
  | c :: rest =>
    if c = ' ' then
      match tryBodyAt rest with
      | some g => some g
      | none => findMatch rest
    else findMatch rest

/-- `parse_rustc_version`: on a match, emit
`format!("{}{}{}-{}-{}", year, month, day, group1, group2)`;
`none` models the source's `expect` panic on a non-matching string. -/
def parse_rustc_version (s : String) : Option String :=
  (findMatch s.data).map fun g =>
    String.mk (g.year ++ g.month ++ g.day ++ '-' :: g.ver ++ '-' :: g.hash)

/-- The structural shape accepted by the version regex: some position of
the string carries a space-separated version token followed by a
parenthesized `(commitHash YYYY-MM-DD)` suffix. -/
def VersionShape (s : String) : Prop :=
  ∃ pre ver hash y mo d rest : List Char,
    ver ≠ [] ∧ hash ≠ [] ∧ y ≠ [] ∧ mo ≠ [] ∧ d ≠ [] ∧
    ver.all isVersionChar = true ∧ hash.all isWordChar = true ∧
    y.all Char.isDigit = true ∧ mo.all Char.isDigit = true ∧
    d.all Char.isDigit = true ∧
    s.data = pre ++ ' ' ::
      (ver ++ ' ' :: '(' ::
        (hash ++ ' ' :: (y ++ '-' :: (mo ++ '-' :: (d ++ ')' :: rest)))))

/- ===================================================================
   Part 4: the sandboxed build executor (`chroot_builder.rs`)

   External collaborators (sandbox command executor, database, package
   fetcher, local filesystem) are an environment of outcomes; every
   externally visible action is recorded in an effect trace in program
   order.  `DocBuilder` carries the two skip caches and the options.
   =================================================================== -/

/-- A command handed to `chroot_command` (the sandbox command executor).
String renderings in the source:
`docBuild n v` = "cratesfyi doc {n} ={v}", `rmBuildDir d` = "rm -rf {d}",
`rustcVersion` = "rustc --version", `cratesfyiVersion` = "cratesfyi --version". -/
inductive Cmd where
  | docBuild (name version : String)
  | rmBuildDir (dir : String)
  | rustcVersion
  | cratesfyiVersion
deriving DecidableEq

/-- `CommandResult`: combined stdout+stderr text, tagged by exit status. -/
inductive CmdRes where
  | ok (out : String)
  | err (out : String)
deriving DecidableEq

/-- Exit-status success of a sandbox command. -/
def CmdRes.isOk : CmdRes → Bool
  | .ok _ => true
  | .err _ => false

/-- One externally visible action of the executor, in program order. -/
inductive Effect where
  | sandbox (c : Cmd)
  | fetch (name versionSpec : String)
  | dbAddPath (pathPfx : String)
  | dbAddPackage
  | dbAddBuild
  | copyDoc (src dst : String)
  | fsRemove (path : String)
deriving DecidableEq

/-- Error kinds of `DocBuilderError` that the embedded code produces. -/
inductive DBErr where
  | db
  | io
  | fetchErr
deriving DecidableEq

/-- `DocBuilderOptions` (the fields `chroot_builder.rs` reads). -/
structure DocBuilderOptions where
  skip_if_exists : Bool
  skip_if_log_exists : Bool
  container_name : String
  chroot_user : String
  chroot_path : String
  sources_path : String
  destination : String
deriving DecidableEq

/-- `DocBuilder`: options plus the local (`cache`) and durable
(`db_cache`) skip caches, modelled as finite sets of identity strings. -/
structure DocBuilder where
  options : DocBuilderOptions
  cache : Finset String
  db_cache : Finset String
deriving DecidableEq

/-- Outcomes of the external collaborators for one build attempt. -/
structure BuildEnv where
  sandbox : Cmd → CmdRes
  connectOk : Bool
  fetchOk : Bool
  haveDoc : Bool
  haveExamples : Bool
  copyDocOk : Bool
  addSourcesOk : Bool
  addDocOk : Bool
  addPackageOk : Bool
  addBuildOk : Bool
  removeDocDirOk : Bool
  removeSrcDirOk : Bool

/-- `canonical_name`: "{name}-{version}". -/
def canonical_name (name version : String) : String := name ++ "-" ++ version

/-- Local documentation destination `{destination}/{name}/{version}`. -/
def docDstPath (opts : DocBuilderOptions) (name version : String) : String :=
  opts.destination ++ "/" ++ name ++ "/" ++ version

/-- Local extracted-source directory `{sources_path}/{name}/{version}`. -/
def srcDirPath (opts : DocBuilderOptions) (name version : String) : String :=
  opts.sources_path ++ "/" ++ name ++ "/" ++ version

/-- Sandbox home build output `{chroot_path}/home/{chroot_user}/{name}-{version}`. -/
def chrootDocPath (opts : DocBuilderOptions) (name version : String) : String :=
  opts.chroot_path ++ "/home/" ++ opts.chroot_user ++ "/" ++ canonical_name name version

/-- `str::trim` on the character list of a string (the library `trim`,
restated so that it evaluates by kernel reduction). -/
def trimChars (l : List Char) : List Char :=
  ((l.dropWhile Char.isWhitespace).reverse.dropWhile Char.isWhitespace).reverse

/-- String-level wrapper of `trimChars`. -/
def trimString (s : String) : String := String.mk (trimChars s.data)

/-- `ChrootBuilderResult`. -/
structure ChrootBuilderResult where
  output : String
  build_success : Bool
  have_doc : Bool
  have_examples : Bool
  rustc_version : String
  cratesfyi_version : String
deriving DecidableEq

/-- `DocBuilder::get_versions`: run `rustc --version` and
`cratesfyi --version` in the sandbox and trim the outputs.  The source
`expect`s both to succeed; failure is a panic, modelled as `none`. -/
def get_versions (env : BuildEnv) : Option ((String × String) × List Effect) :=
  match env.sandbox Cmd.rustcVersion, env.sandbox Cmd.cratesfyiVersion with
  | CmdRes.ok r, CmdRes.ok c =>
    some ((trimString r, trimString c),
          [Effect.sandbox Cmd.rustcVersion, Effect.sandbox Cmd.cratesfyiVersion])
  | _, _ => none

/-- `DocBuilder::build_package_in_chroot`: get the toolchain versions,
then run the single `cratesfyi doc {name} ={version}` sandbox command and
classify its outcome.  On failure, `have_doc` is hardwired `false`; on
success it is the filesystem check (an environment bit here). -/
def build_package_in_chroot (env : BuildEnv) (name version : String) :
    Option (ChrootBuilderResult × List Effect) :=
  (get_versions env).map fun vs =>
    let cmd := Cmd.docBuild name version
    let effs := vs.2 ++ [Effect.sandbox cmd]
    match env.sandbox cmd with
    | CmdRes.ok o =>
      ({ output := o
         build_success := true
         have_doc := env.haveDoc
         have_examples := env.haveExamples
         rustc_version := vs.1.1
         cratesfyi_version := vs.1.2 }, effs)
    | CmdRes.err e =>
      ({ output := e
         build_success := false
         have_doc := false
         have_examples := env.haveExamples
         rustc_version := vs.1.1
         cratesfyi_version := vs.1.2 }, effs)

/-- `DocBuilder::copy_documentation`: parse the toolchain version (panic
— `none` — if it does not match), then copy the documentation tree from
the sandbox home to the local destination. -/
def copy_documentation (env : BuildEnv) (opts : DocBuilderOptions)
    (name version rustcVer : String) : Option (Except DBErr Unit × List Effect) :=
  match parse_rustc_version rustcVer with
  | none => none
  | some _ =>
    let effs := [Effect.copyDoc (chrootDocPath opts name version) (docDstPath opts name version)]
    if env.copyDocOk = false then some (Except.error DBErr.io, effs)
    else some (Except.ok (), effs)

/-- `DocBuilder::add_sources_into_database`: persist the extracted source
tree under "sources/{name}/{version}". -/
def add_sources_into_database (env : BuildEnv) (name version : String) :
    Except DBErr Unit × List Effect :=
  ((if env.addSourcesOk then Except.ok () else Except.error DBErr.db),
   [Effect.dbAddPath ("sources/" ++ name ++ "/" ++ version)])

/-- `DocBuilder::add_documentation_into_database`: persist the
documentation tree under "rustdoc/{name}/{version}". -/
def add_documentation_into_database (env : BuildEnv) (name version : String) :
    Except DBErr Unit × List Effect :=
  ((if env.addDocOk then Except.ok () else Except.error DBErr.db),
   [Effect.dbAddPath ("rustdoc/" ++ name ++ "/" ++ version)])

/-- The `if res.have_doc { copy_documentation; add_documentation }` block
of `build_package`, with `try!` propagation. -/
def docStep (env : BuildEnv) (opts : DocBuilderOptions)
    (name version rustcVer : String) : Option (Except DBErr Unit × List Effect) :=
  match copy_documentation env opts name version rustcVer with
  | none => none
  | some (Except.error er, effs) => some (Except.error er, effs)
  | some (Except.ok _, effs) =>
    let r2 := add_documentation_into_database env name version
    some (r2.1, effs ++ r2.2)

/-- `DocBuilder::remove_build_dir`: issue `rm -rf {name}-{version}` in
the sandbox and DISCARD the command's result (`let _ = ...` in the
source); always returns `Ok`. -/
def remove_build_dir (env : BuildEnv) (name version : String) :
    Except DBErr Unit × List Effect :=
  let _ignored : CmdRes := env.sandbox (Cmd.rmBuildDir (canonical_name name version))
  (Except.ok (), [Effect.sandbox (Cmd.rmBuildDir (canonical_name name version))])

/-- `DocBuilder::clean`: remove the sandbox build directory (result
ignored), then `remove_dir_all` the local documentation directory and
the local sources directory, each with `try!` propagation. -/
def clean (env : BuildEnv) (opts : DocBuilderOptions) (name version : String) :
    Except DBErr Unit × List Effect :=
  let r0 := remove_build_dir env name version
  match r0.1 with
  | Except.error er => (Except.error er, r0.2)
  | Except.ok _ =>
    let e1 := r0.2 ++ [Effect.fsRemove (docDstPath opts name version)]
    if env.removeDocDirOk = false then (Except.error DBErr.io, e1)
    else
      let e2 := e1 ++ [Effect.fsRemove (srcDirPath opts name version)]
      if env.removeSrcDirOk = false then (Except.error DBErr.io, e2)
      else (Except.ok (), e2)

/-- `DocBuilder::build_package`: connect to the database, consult the two
skip caches, fetch the pinned package, build in the sandbox, persist
sources (and documentation when present), record the package and build,
clean up, and finally insert the identity into the local cache.  `none`
models a panic; the second component is the resulting `DocBuilder`
state; the third is the effect trace. -/
def build_package (env : BuildEnv) (b : DocBuilder) (name version : String) :
    Option (Except DBErr Bool × DocBuilder × List Effect) :=
  if env.connectOk = false then some (Except.error DBErr.db, b, []) else
  if (b.options.skip_if_log_exists = true ∧ canonical_name name version ∈ b.cache)
      ∨ (b.options.skip_if_exists = true ∧ canonical_name name version ∈ b.db_cache) then
    some (Except.ok false, b, [])
  else
  if env.fetchOk = false then
    some (Except.error DBErr.fetchErr, b, [Effect.fetch name ("=" ++ version)])
  else
  match build_package_in_chroot env name version with
  | none => none
  | some (res, eChroot) =>
    let e0 := Effect.fetch name ("=" ++ version) :: eChroot
    let rSrc := add_sources_into_database env name version
    let e1 := e0 ++ rSrc.2
    match rSrc.1 with
    | Except.error er => some (Except.error er, b, e1)
    | Except.ok _ =>
      match (if res.have_doc = true then docStep env b.options name version res.rustc_version
             else some (Except.ok (), [])) with
      | none => none
      | some (Except.error er, eDoc) => some (Except.error er, b, e1 ++ eDoc)
      | some (Except.ok _, eDoc) =>
        let e3 := (e1 ++ eDoc) ++ [Effect.dbAddPackage]
        if env.addPackageOk = false then some (Except.error DBErr.db, b, e3) else
        let e4 := e3 ++ [Effect.dbAddBuild]
        if env.addBuildOk = false then some (Except.error DBErr.db, b, e4) else
        let rClean := clean env b.options name version
        let e5 := e4 ++ rClean.2
        match rClean.1 with
        | Except.error er => some (Except.error er, b, e5)
        | Except.ok _ =>
          some (Except.ok res.build_success,
                { b with cache := insert (canonical_name name version) b.cache }, e5)

/-- The body of the per-crate closure in `DocBuilder::build_world` plus
the loop over the crate list: on `Ok(status)` increment the counter (the
periodic `save_cache` writes the cache to disk and is invisible here);
on `Err` only log; in BOTH cases insert the identity into the local
cache afterwards.  `none` models a panic escaping the closure. -/
def build_world_list (envf : String → String → BuildEnv) :
    List (String × String) → DocBuilder → Nat → Option (DocBuilder × Nat)
  | [], b, count => some (b, count)
  | (name, version) :: rest, b, count =>
    match build_package (envf name version) b name version with
    | none => none
    | some (r, b1, _effs) =>
      let count1 := match r with
        | Except.ok _ => count + 1
        | Except.error _ => count
      let b2 := { b1 with cache := insert (canonical_name name version) b1.cache }
      build_world_list envf rest b2 count1

/-- `DocBuilder::build_world`: `update_sources` first (`try!`), then run
the closure over every crate of the index. -/
def build_world (updateSourcesOk : Bool) (envf : String → String → BuildEnv)
    (pkgs : List (String × String)) (b : DocBuilder) :
    Option (Except DBErr DocBuilder) :=
  if updateSourcesOk = false then some (Except.error DBErr.io) else
  (build_world_list envf pkgs b 0).map (fun p => Except.ok p.1)

/- ===================================================================
   Part 5: the queue worker (`utils/queue_builder.rs`)

   One iteration of the infinite `loop` is a function of the current
   `BuilderState` and an observation environment (tempdir reclamation
   outcome, lock flag, backlog query, build-step outcome, lock-engage
   outcome).  Observable actions are collected in order.  The only way
   an iteration can kill the worker is the `expect` on `lock()` after a
   caught panic; that is `none`.
   =================================================================== -/

/-- `BuilderState` from `queue_builder`. -/
inductive BuilderState where
  | Fresh
  | EmptyQueue
  | Locked
  | QueueInProgress
deriving DecidableEq

/-- Outcome of `build_next_queue_package` inside `catch_unwind`:
a normal return, a returned error, or a panic (unwind). -/
inductive BuildStepOutcome where
  | ok
  | err
  | panicked
deriving DecidableEq

/-- Externally observable actions of one loop iteration. -/
inductive WorkerAction where
  | reportTempdirError
  | sleep
  | warnLocked
  | reportQueueError
  | reportBuildError
  | logGrave
  | engageLock
deriving DecidableEq

/-- Observations delivered to one loop iteration. -/
structure QueueEnv where
  removeTempdirsOk : Bool
  isLocked : Bool
  pendingCount : Except Unit Nat
  buildOutcome : BuildStepOutcome
  lockOk : Bool

/-- The iteration prelude: best-effort tempdir reclamation (report on
failure) and the 60-second idle sleep, skipped only when the previous
state was `QueueInProgress`. -/
def baseActs (env : QueueEnv) (st : BuilderState) : List WorkerAction :=
  (if env.removeTempdirsOk then [] else [WorkerAction.reportTempdirError])
    ++ (match st with
        | BuilderState.QueueInProgress => []
        | _ => [WorkerAction.sleep])

/-- One iteration of the `queue_builder` loop: returns the state carried
into the next iteration and the actions performed, or `none` when the
post-panic `lock().expect(...)` itself fails (process-killing panic). -/
def iteration (env : QueueEnv) (st : BuilderState) :
    Option (BuilderState × List WorkerAction) :=
  let acts := baseActs env st
  if env.isLocked then some (BuilderState.Locked, acts ++ [WorkerAction.warnLocked])
  else
    match env.pendingCount with
    | Except.error _ => some (st, acts ++ [WorkerAction.reportQueueError])
    | Except.ok 0 => some (BuilderState.EmptyQueue, acts)
    | Except.ok (_ + 1) =>
      match env.buildOutcome with
      | BuildStepOutcome.ok => some (BuilderState.QueueInProgress, acts)
      | BuildStepOutcome.err =>
        some (BuilderState.QueueInProgress, acts ++ [WorkerAction.reportBuildError])
      | BuildStepOutcome.panicked =>
        if env.lockOk then
          some (BuilderState.QueueInProgress, acts ++ [WorkerAction.logGrave, WorkerAction.engageLock])
        else none

/- ===================================================================
   Theorems
   =================================================================== -/

/-- C3: for every manifest fragment, the resolved default target is the
explicit `default_target` field when set (even when an explicit
non-empty `targets` list is also set); otherwise the first element of
the `targets` list when that list is set and non-empty; otherwise the
orchestrator's host platform triple. -/
theorem C3_default_target_resolution (host : String) (m : Metadata) :
    (Metadata.build_targets host m).default_target =
      match m.default_target with
      | some t => t
      | none =>
        match m.targets with
        | some (t :: _) => t
        | some [] => host
        | none => host := by
  obtain ⟨f, af, ndf, dt, tg, ra, rda⟩ := m
  cases dt with
  | some t => rfl
  | none =>
    cases tg with
    | none => rfl
    | some l => cases l <;> rfl

/-- C4: the resolved `other_targets` never contains the resolved
`default_target`; an explicitly empty `targets` list yields an empty
`other_targets` (effective target set = the default singleton); and a
duplicate occurrence appended to the `targets` list leaves the resolved
targets unchanged (duplicates collapse). -/
theorem C4_other_targets_invariants (host : String) (m : Metadata)
    (l : List String) (a : String) :
    (Metadata.build_targets host m).default_target ∉
        (Metadata.build_targets host m).other_targets
    ∧ (m.targets = some [] → (Metadata.build_targets host m).other_targets = ∅)
    ∧ (m.targets = some l → a ∈ l →
        Metadata.build_targets host { m with targets := some (l ++ [a]) } =
          Metadata.build_targets host m) := by
  refine ⟨?_, ?_, ?_⟩
  · simp only [Metadata.build_targets]
    exact Finset.not_mem_erase _ _
  · intro h
    simp [Metadata.build_targets, h]
  · intro h ha
    obtain ⟨f, af, ndf, dt, tg, ra, rda⟩ := m
    simp only [Metadata.mk.injEq] at h ⊢
    subst h
    have hne : l ≠ [] := by
      rintro rfl
      simp at ha
    have hhead : (l ++ [a]).head? = l.head? := by
      cases l with
      | nil => exact absurd rfl hne
      | cons x xs => rfl
    have hfin : (l ++ [a]).toFinset = l.toFinset := by
      ext x
      simp only [List.mem_toFinset, List.mem_append, List.mem_singleton]
      constructor
      · rintro (hx | rfl)
        · exact hx
        · exact ha
      · intro hx
        exact Or.inl hx
    simp [Metadata.build_targets, hhead, hfin]

/-- C4 witness: an explicitly empty target list leaves `other_targets`
empty, and appending a duplicate to a target list changes nothing. -/
theorem C4_witness :
    (Metadata.build_targets "hst" { Metadata.default with targets := some [] }).other_targets = ∅
    ∧ Metadata.build_targets "hst"
        { Metadata.default with targets := some (["t1", "t2"] ++ ["t1"]) } =
      Metadata.build_targets "hst" { Metadata.default with targets := some ["t1", "t2"] } :=
  ⟨(C4_other_targets_invariants "hst" { Metadata.default with targets := some [] } [] "x").2.1 rfl,
   (C4_other_targets_invariants "hst" { Metadata.default with targets := some ["t1", "t2"] }
      ["t1", "t2"] "t1").2.2 rfl (by decide)⟩

/-- C5 counterexample: with `features = ["--target"]`, the literal string
"--target" DOES appear in the resolved cargo argument list (as the
joined features value), so the claim's "never appears" clause is false
as stated. -/
theorem C5_counterexample :
    "--target" ∈ Metadata.cargo_args { Metadata.default with features := some ["--target"] } := by
  decide

/-- C5 (amended): `cargo_args` is the three fixed tokens, then
`--features` plus the space-joined feature names iff `features` is set
(also when explicitly empty), then `--all-features` iff `all_features`,
then `--no-default-features` iff `no_default_features`; and "--target"
occurs only as the joined features value (never as a flag added by the
resolver itself). -/
theorem C5_cargo_args_construction (m : Metadata) :
    m.cargo_args =
      ["doc", "--lib", "--no-deps"]
        ++ (match m.features with
            | some fs => ["--features", String.intercalate " " fs]
            | none => [])
        ++ (if m.all_features then ["--all-features"] else [])
        ++ (if m.no_default_features then ["--no-default-features"] else [])
    ∧ ("--target" ∈ m.cargo_args →
        ∃ fs, m.features = some fs ∧ String.intercalate " " fs = "--target") := by
  obtain ⟨f, af, ndf, dt, tg, ra, rda⟩ := m
  constructor
  · cases f <;> cases af <;> cases ndf <;> simp [Metadata.cargo_args]
  · intro hmem
    cases f with
    | none =>
      cases af <;> cases ndf <;> simp [Metadata.cargo_args] at hmem
    | some fs =>
      refine ⟨fs, rfl, ?_⟩
      cases af <;> cases ndf <;> simp [Metadata.cargo_args] at hmem <;> exact hmem.symm

/-- C5 witness: the membership characterisation applied at the
counterexample input. -/
theorem C5_witness :
    ∃ fs, ({ Metadata.default with features := some ["--target"] } : Metadata).features = some fs
        ∧ String.intercalate " " fs = "--target" :=
  (C5_cargo_args_construction { Metadata.default with features := some ["--target"] }).2 (by decide)

/-- An array containing a non-string element collects to `none`. -/
theorem collect_into_array_eq_none {l : List Toml} {bad : Toml}
    (hmem : bad ∈ l) (hbad : bad.as_str = none) : collect_into_array l = none := by
  induction l with
  | nil => cases hmem
  | cons v rest ih =>
    rcases List.mem_cons.mp hmem with rfl | hmem'
    · simp [collect_into_array, hbad]
    · cases hv : v.as_str with
      | none => simp [collect_into_array, hv]
      | some s => simp [collect_into_array, hv, ih hmem']

/-- C9: manifest parsing is lenient about field types — a wrongly-typed
field in the `[package.metadata.docs.rs]` table (non-boolean
`all-features`/`no-default-features`, non-string `default-target`, or a
`features`/`targets`/`rustc-args`/`rustdoc-args` array with a non-string
element) leaves that field at its default (`false` or absent) instead of
failing, and `from_str` errors only when the external TOML text parse of
the whole document errors. -/
theorem C9_lenient_manifest_parsing (parseToml : String → Except String Toml)
    (text : String) (v : Toml) (t : List (String × Toml)) (x : Toml)
    (l : List Toml) (bad : Toml) :
    (parseToml text = Except.ok v →
        Metadata.from_str parseToml text = Except.ok (Metadata.from_toml_value v))
    ∧ (fetch_manifest_tables v = some t →
        ((lookupKey t "all-features" = some x → x.as_bool = none →
            (Metadata.from_toml_value v).all_features = false)
        ∧ (lookupKey t "no-default-features" = some x → x.as_bool = none →
            (Metadata.from_toml_value v).no_default_features = false)
        ∧ (lookupKey t "default-target" = some x → x.as_str = none →
            (Metadata.from_toml_value v).default_target = none)
        ∧ (lookupKey t "features" = some x → x.as_array = some l →
            bad ∈ l → bad.as_str = none → (Metadata.from_toml_value v).features = none)
        ∧ (lookupKey t "targets" = some x → x.as_array = some l →
            bad ∈ l → bad.as_str = none → (Metadata.from_toml_value v).targets = none)
        ∧ (lookupKey t "rustc-args" = some x → x.as_array = some l →
            bad ∈ l → bad.as_str = none → (Metadata.from_toml_value v).rustc_args = none)
        ∧ (lookupKey t "rustdoc-args" = some x → x.as_array = some l →
            bad ∈ l → bad.as_str = none →
              (Metadata.from_toml_value v).rustdoc_args = none))) := by
  constructor
  · intro hp
    simp [Metadata.from_str, hp, Except.map]
  · intro ht
    refine ⟨?_, ?_, ?_, ?_, ?_, ?_, ?_⟩ <;> intro hl
    · intro hb
      simp [Metadata.from_toml_value, ht, hl, hb, Metadata.default]
    · intro hb
      simp [Metadata.from_toml_value, ht, hl, hb, Metadata.default]
    · intro hs
      simp [Metadata.from_toml_value, ht, hl, hs]
    · intro ha hm hb
      simp [Metadata.from_toml_value, ht, hl, ha, collect_into_array_eq_none hm hb]
    · intro ha hm hb
      simp [Metadata.from_toml_value, ht, hl, ha, collect_into_array_eq_none hm hb]
    · intro ha hm hb
      simp [Metadata.from_toml_value, ht, hl, ha, collect_into_array_eq_none hm hb]
    · intro ha hm hb
      simp [Metadata.from_toml_value, ht, hl, ha, collect_into_array_eq_none hm hb]

/-- The inner `[package.metadata.docs.rs]` table of the wrongly-typed
example manifest below. -/
def badRsTable : List (String × Toml) :=
  [("all-features", Toml.int 1),
   ("no-default-features", Toml.str "yes"),
   ("default-target", Toml.int 7),
   ("features", Toml.arr [Toml.str "a", Toml.int 2]),
   ("targets", Toml.arr [Toml.boolean true]),
   ("rustc-args", Toml.arr [Toml.int 3]),
   ("rustdoc-args", Toml.arr [Toml.int 4])]

/-- A parsed manifest whose docs-configuration fields all carry wrong
types. -/
def badManifest : Toml :=
  Toml.table [("package", Toml.table [("metadata", Toml.table [("docs", Toml.table
    [("rs", Toml.table badRsTable)])])])]

/-- C9 witness: on the wrongly-typed manifest, parsing succeeds and every
field stays at its default. -/
theorem C9_witness :
    Metadata.from_str (fun _ => Except.ok badManifest) "txt" =
        Except.ok (Metadata.from_toml_value badManifest)
    ∧ (Metadata.from_toml_value badManifest).all_features = false
    ∧ (Metadata.from_toml_value badManifest).no_default_features = false
    ∧ (Metadata.from_toml_value badManifest).default_target = none
    ∧ (Metadata.from_toml_value badManifest).features = none
    ∧ (Metadata.from_toml_value badManifest).targets = none
    ∧ (Metadata.from_toml_value badManifest).rustc_args = none
    ∧ (Metadata.from_toml_value badManifest).rustdoc_args = none :=
  ⟨(C9_lenient_manifest_parsing (fun _ => Except.ok badManifest) "txt" badManifest
      badRsTable (Toml.int 1) [] (Toml.int 0)).1 rfl,
   (((C9_lenient_manifest_parsing (fun _ => Except.ok badManifest) "txt" badManifest
      badRsTable (Toml.int 1) [] (Toml.int 0)).2 rfl).1 rfl rfl),
   (((C9_lenient_manifest_parsing (fun _ => Except.ok badManifest) "txt" badManifest
      badRsTable (Toml.str "yes") [] (Toml.int 0)).2 rfl).2.1 rfl rfl),
   (((C9_lenient_manifest_parsing (fun _ => Except.ok badManifest) "txt" badManifest
      badRsTable (Toml.int 7) [] (Toml.int 0)).2 rfl).2.2.1 rfl rfl),
   (((C9_lenient_manifest_parsing (fun _ => Except.ok badManifest) "txt" badManifest
      badRsTable (Toml.arr [Toml.str "a", Toml.int 2]) [Toml.str "a", Toml.int 2]
      (Toml.int 2)).2 rfl).2.2.2.1 rfl rfl
        (List.mem_cons_of_mem _ (List.mem_cons_self _ _)) rfl),
   (((C9_lenient_manifest_parsing (fun _ => Except.ok badManifest) "txt" badManifest
      badRsTable (Toml.arr [Toml.boolean true]) [Toml.boolean true]
      (Toml.boolean true)).2 rfl).2.2.2.2.1 rfl rfl (List.mem_cons_self _ _) rfl),
   (((C9_lenient_manifest_parsing (fun _ => Except.ok badManifest) "txt" badManifest
      badRsTable (Toml.arr [Toml.int 3]) [Toml.int 3]
      (Toml.int 3)).2 rfl).2.2.2.2.2.1 rfl rfl (List.mem_cons_self _ _) rfl),
   (((C9_lenient_manifest_parsing (fun _ => Except.ok badManifest) "txt" badManifest
      badRsTable (Toml.arr [Toml.int 4]) [Toml.int 4]
      (Toml.int 4)).2 rfl).2.2.2.2.2.2 rfl rfl (List.mem_cons_self _ _) rfl)⟩

/-- Every character kept by `takeWhile` satisfies the predicate. -/
theorem takeWhile_all_true (p : Char → Bool) (l : List Char) :
    (l.takeWhile p).all p = true := by
  rw [List.all_eq_true]
  intro a ha
  exact List.mem_takeWhile_imp ha

/-- A successful body match decomposes its input into the regex shape,
with the captured groups non-empty and class-respecting. -/
theorem tryBodyAt_sound (l : List Char) (g : VersionGroups)
    (h : tryBodyAt l = some g) :
    ∃ rest,
      l = g.ver ++ ' ' :: '(' ::
            (g.hash ++ ' ' :: (g.year ++ '-' :: (g.month ++ '-' :: (g.day ++ ')' :: rest))))
      ∧ g.ver ≠ [] ∧ g.hash ≠ [] ∧ g.year ≠ [] ∧ g.month ≠ [] ∧ g.day ≠ []
      ∧ g.ver.all isVersionChar = true ∧ g.hash.all isWordChar = true
      ∧ g.year.all Char.isDigit = true ∧ g.month.all Char.isDigit = true
      ∧ g.day.all Char.isDigit = true := by
  obtain ⟨ver, hash, y, mo, d⟩ := g
  unfold tryBodyAt at h
  split at h
  · exact Option.noConfusion h
  rename_i h1
  split at h <;> try exact Option.noConfusion h
  rename_i r2 heq1
  split at h
  · exact Option.noConfusion h
  rename_i h2
  split at h <;> try exact Option.noConfusion h
  rename_i r4 heq2
  split at h
  · exact Option.noConfusion h
  rename_i h3
  split at h <;> try exact Option.noConfusion h
  rename_i r6 heq3
  split at h
  · exact Option.noConfusion h
  rename_i h4
  split at h <;> try exact Option.noConfusion h
  rename_i r8 heq4
  split at h
  · exact Option.noConfusion h
  rename_i h5
  split at h <;> try exact Option.noConfusion h
  rename_i r9 heq5
  simp only [Option.some.injEq, VersionGroups.mk.injEq] at h
  obtain ⟨rfl, rfl, rfl, rfl, rfl⟩ := h
  have e1 := (List.takeWhile_append_dropWhile isVersionChar l).symm
  rw [heq1] at e1
  have e2 := (List.takeWhile_append_dropWhile isWordChar r2).symm
  rw [heq2] at e2
  have e3 := (List.takeWhile_append_dropWhile Char.isDigit r4).symm
  rw [heq3] at e3
  have e4 := (List.takeWhile_append_dropWhile Char.isDigit r6).symm
  rw [heq4] at e4
  have e5 := (List.takeWhile_append_dropWhile Char.isDigit r8).symm
  rw [heq5] at e5
  rw [e5] at e4
  rw [e4] at e3
  rw [e3] at e2
  rw [e2] at e1
  refine ⟨r9, e1, ?_, ?_, ?_, ?_, ?_,
    takeWhile_all_true _ _, takeWhile_all_true _ _, takeWhile_all_true _ _,
    takeWhile_all_true _ _, takeWhile_all_true _ _⟩
  · intro hnil
    exact h1 (by rw [show List.takeWhile isVersionChar l = [] from hnil]; rfl)
  · intro hnil
    exact h2 (by rw [show List.takeWhile isWordChar r2 = [] from hnil]; rfl)
  · intro hnil
    exact h3 (by rw [show List.takeWhile Char.isDigit r4 = [] from hnil]; rfl)
  · intro hnil
    exact h4 (by rw [show List.takeWhile Char.isDigit r6 = [] from hnil]; rfl)
  · intro hnil
    exact h5 (by rw [show List.takeWhile Char.isDigit r8 = [] from hnil]; rfl)

/-- A successful `findMatch` pins a starting space somewhere in the
input, with a successful body match right after it. -/
theorem findMatch_sound (l : List Char) (g : VersionGroups)
    (h : findMatch l = some g) :
    ∃ pre rest, l = pre ++ ' ' :: rest ∧ tryBodyAt rest = some g := by
  induction l with
  | nil => exact Option.noConfusion h
  | cons c cs ih =>
    unfold findMatch at h
    by_cases hc : c = ' '
    · rw [if_pos hc] at h
      cases ht : tryBodyAt cs with
      | some g2 =>
        rw [ht] at h
        cases h
        exact ⟨[], cs, by simp [hc], ht⟩
      | none =>
        rw [ht] at h
        obtain ⟨pre, rest, hl, hb⟩ := ih h
        exact ⟨c :: pre, rest, by simp [hl], hb⟩
    · rw [if_neg hc] at h
      obtain ⟨pre, rest, hl, hb⟩ := ih h
      exact ⟨c :: pre, rest, by simp [hl], hb⟩

/-- C2 counterexample: on the claim's own example strings the parser
emits the VERSION token (the second whitespace-separated token), not the
tool NAME, so the claimed outputs are wrong. -/
theorem C2_counterexample :
    parse_rustc_version "toolname 1.10.0-nightly (57ef01513 2016-05-23)" ≠
        some "20160523-toolname-57ef01513"
    ∧ parse_rustc_version "othertool 0.2.0 (ba9ae23 2016-05-26)" ≠
        some "20160526-othertool-ba9ae23" := by
  constructor <;> decide

/-- C2 (amended): version parsing maps
`name version (commitHash YYYY-MM-DD)` to `YYYYMMDD-version-commitHash`
— the canonical tag carries the version token, not the name — and every
string lacking the parenthesized hash-and-date suffix fails to parse
(whenever parsing succeeds, the input contains the space-separated
version token followed by `(hash YYYY-MM-DD)`). -/
theorem C2_version_parsing :
    parse_rustc_version "toolname 1.10.0-nightly (57ef01513 2016-05-23)" =
        some "20160523-1.10.0-nightly-57ef01513"
    ∧ parse_rustc_version "othertool 0.2.0 (ba9ae23 2016-05-26)" =
        some "20160526-0.2.0-ba9ae23"
    ∧ ∀ (s r : String), parse_rustc_version s = some r → VersionShape s := by
  refine ⟨by decide, by decide, ?_⟩
  intro s r h
  unfold parse_rustc_version at h
  obtain ⟨g, hg, -⟩ := Option.map_eq_some'.mp h
  obtain ⟨pre, rest, hl, hb⟩ := findMatch_sound _ _ hg
  obtain ⟨r9, hrest, hv, hh, hy, hm, hd, av, ah, ay, am, ad⟩ := tryBodyAt_sound _ _ hb
  exact ⟨pre, g.ver, g.hash, g.year, g.month, g.day, r9,
         hv, hh, hy, hm, hd, av, ah, ay, am, ad, by rw [hl, hrest]⟩

/-- C2 witness: the soundness direction applied at the first example. -/
theorem C2_witness :
    VersionShape "toolname 1.10.0-nightly (57ef01513 2016-05-23)" :=
  C2_version_parsing.2.2 "toolname 1.10.0-nightly (57ef01513 2016-05-23)"
    "20160523-1.10.0-nightly-57ef01513" (by decide)

/-- Number of sandbox invocations of the documentation-build command in
an effect trace. -/
def docInvocationCount (effs : List Effect) : Nat :=
  (effs.filter (fun e =>
    match e with
    | Effect.sandbox (Cmd.docBuild _ _) => true
    | _ => false)).length

/-- Number of resolved targets of a build plan: the default target plus
every other target. -/
def resolvedTargetCount (host : String) (m : Metadata) : Nat :=
  1 + (Metadata.build_targets host m).other_targets.card

/-- A collaborator environment in which everything succeeds and the
build produces no documentation output. -/
def envAllOk : BuildEnv :=
  { sandbox := fun c =>
      match c with
      | Cmd.rustcVersion => CmdRes.ok "rustc 1.10.0-nightly (57ef01513 2016-05-23)"
      | Cmd.cratesfyiVersion => CmdRes.ok "cratesfyi 0.2.0 (ba9ae23 2016-05-26)"
      | _ => CmdRes.ok "done"
    connectOk := true
    fetchOk := true
    haveDoc := false
    haveExamples := false
    copyDocOk := true
    addSourcesOk := true
    addDocOk := true
    addPackageOk := true
    addBuildOk := true
    removeDocDirOk := true
    removeSrcDirOk := true }

/-- A manifest fragment resolving to two targets (one default plus one
other). -/
def mTwoTargets : Metadata := { Metadata.default with targets := some ["t1", "t2"] }

/-- C1 counterexample: a build attempt issues exactly ONE sandbox
doc-build invocation even when the resolved build plan has two targets,
so "once per resolved target" is false. -/
theorem C1_counterexample :
    (build_package_in_chroot envAllOk "foo" "0.1.0").map
        (fun p => docInvocationCount p.2) = some 1
    ∧ resolvedTargetCount "hst" mTwoTargets = 2
    ∧ (1 : Nat) ≠ 2 := by
  refine ⟨by decide, by decide, by decide⟩

/-- C1 (amended): every build attempt that does not panic issues exactly
one sandbox doc-build invocation, independent of the resolved target
set; a non-zero exit of that single invocation marks the attempt as
failed, and the aggregate success flag equals that invocation's exit
success. -/
theorem C1_single_sandbox_invocation (env : BuildEnv) (name version : String)
    (res : ChrootBuilderResult) (effs : List Effect)
    (h : build_package_in_chroot env name version = some (res, effs)) :
    docInvocationCount effs = 1
    ∧ res.build_success = (env.sandbox (Cmd.docBuild name version)).isOk := by
  unfold build_package_in_chroot get_versions at h
  cases hr : env.sandbox Cmd.rustcVersion with
  | err o => simp [hr] at h
  | ok r =>
    cases hc : env.sandbox Cmd.cratesfyiVersion with
    | err o => simp [hr, hc] at h
    | ok c =>
      cases hd : env.sandbox (Cmd.docBuild name version) with
      | ok o =>
        simp [hr, hc, hd] at h
        obtain ⟨hres, heffs⟩ := h
        subst hres
        subst heffs
        exact ⟨rfl, rfl⟩
      | err o =>
        simp [hr, hc, hd] at h
        obtain ⟨hres, heffs⟩ := h
        subst hres
        subst heffs
        exact ⟨rfl, rfl⟩

/-- The chroot result of a fully successful no-docs attempt. -/
def witnessChrootRes : ChrootBuilderResult :=
  { output := "done"
    build_success := true
    have_doc := false
    have_examples := false
    rustc_version := trimString "rustc 1.10.0-nightly (57ef01513 2016-05-23)"
    cratesfyi_version := trimString "cratesfyi 0.2.0 (ba9ae23 2016-05-26)" }

/-- The effect trace of a fully successful no-docs attempt. -/
def witnessChrootEffs : List Effect :=
  [Effect.sandbox Cmd.rustcVersion, Effect.sandbox Cmd.cratesfyiVersion,
   Effect.sandbox (Cmd.docBuild "foo" "0.1.0")]

/-- C1 witness: the single-invocation theorem applied to a concrete
successful attempt. -/
theorem C1_witness :
    docInvocationCount witnessChrootEffs = 1
    ∧ witnessChrootRes.build_success = (envAllOk.sandbox (Cmd.docBuild "foo" "0.1.0")).isOk :=
  C1_single_sandbox_invocation envAllOk "foo" "0.1.0" witnessChrootRes witnessChrootEffs rfl

/-- C6: when `skip_if_log_exists` is set and the identity is in the
local cache, or `skip_if_exists` is set and the identity is in the
durable cache (either alone suffices), `build_package` returns the
"skipped" result with an EMPTY effect trace — no sandbox invocation, no
fetch, no persistence write — and unchanged builder state.  (The
database connection of step 1 must succeed for control to reach the
skip decision.) -/
theorem C6_skip_semantics (env : BuildEnv) (b : DocBuilder) (name version : String)
    (hconn : env.connectOk = true)
    (hskip : (b.options.skip_if_log_exists = true ∧ canonical_name name version ∈ b.cache)
        ∨ (b.options.skip_if_exists = true ∧ canonical_name name version ∈ b.db_cache)) :
    build_package env b name version = some (Except.ok false, b, []) := by
  unfold build_package
  rw [hconn, if_neg (by simp), if_pos hskip]

/-- Options with only the local-log skip flag set. -/
def optsSkipLog : DocBuilderOptions :=
  { skip_if_exists := false
    skip_if_log_exists := true
    container_name := "ctr"
    chroot_user := "usr"
    chroot_path := "/chroot"
    sources_path := "/srcs"
    destination := "/dst" }

/-- A builder whose local cache already holds the identity. -/
def bLogged : DocBuilder :=
  { options := optsSkipLog, cache := {"foo-0.1.0"}, db_cache := ∅ }

/-- C6 witness: a pre-logged identity with `skip_if_log_exists` is
skipped with zero effects. -/
theorem C6_witness :
    build_package envAllOk bLogged "foo" "0.1.0" = some (Except.ok false, bLogged, []) :=
  C6_skip_semantics envAllOk bLogged "foo" "0.1.0" rfl (Or.inl ⟨rfl, by decide⟩)

/-- Environment for a full bookkeeping-clean run whose doc-build command
returns `r`: toolchain queries succeed, no documentation output, every
database write and removal succeeds. -/
def envCleanBuild (r : CmdRes) : BuildEnv :=
  { envAllOk with
    sandbox := fun c =>
      match c with
      | Cmd.docBuild _ _ => r
      | Cmd.rustcVersion => CmdRes.ok "rustc 1.10.0-nightly (57ef01513 2016-05-23)"
      | Cmd.cratesfyiVersion => CmdRes.ok "cratesfyi 0.2.0 (ba9ae23 2016-05-26)"
      | Cmd.rmBuildDir _ => CmdRes.ok "done" }

/-- The complete effect trace of a bookkeeping-clean no-docs attempt:
fetch, toolchain queries, the single doc build, the sources write, the
package and build records, then the three cleanup removals. -/
def fullCleanTrace (opts : DocBuilderOptions) (name version : String) : List Effect :=
  [Effect.fetch name ("=" ++ version),
   Effect.sandbox Cmd.rustcVersion,
   Effect.sandbox Cmd.cratesfyiVersion,
   Effect.sandbox (Cmd.docBuild name version),
   Effect.dbAddPath ("sources/" ++ name ++ "/" ++ version),
   Effect.dbAddPackage,
   Effect.dbAddBuild,
   Effect.sandbox (Cmd.rmBuildDir (canonical_name name version)),
   Effect.fsRemove (docDstPath opts name version),
   Effect.fsRemove (srcDirPath opts name version)]

/-- Options with no skip flag set. -/
def optsNoSkip : DocBuilderOptions := { optsSkipLog with skip_if_log_exists := false }

/-- A builder with empty caches and no skip flags. -/
def bNoSkip : DocBuilder := { options := optsNoSkip, cache := ∅, db_cache := ∅ }

/-- C7 counterexample: the sandbox build-directory removal command fails
(non-zero exit) yet `clean` reports success — the failure of this
removal is NOT propagated, so "every removal failure is propagated as an
error" is false as stated. -/
def envRmFail : BuildEnv :=
  { envAllOk with
    sandbox := fun c =>
      match c with
      | Cmd.rmBuildDir _ => CmdRes.err "rm failed"
      | _ => CmdRes.ok "done" }

/-- C7 counterexample theorem: a failing sandbox `rm -rf` leaves `clean`
returning `Ok`. -/
theorem C7_counterexample :
    envRmFail.sandbox (Cmd.rmBuildDir (canonical_name "foo" "0.1.0")) = CmdRes.err "rm failed"
    ∧ (clean envRmFail optsSkipLog "foo" "0.1.0").1 = Except.ok () := by
  exact ⟨rfl, rfl⟩

/-- C7 (amended): after bookkeeping the executor issues the sandbox
build-directory removal, then removes the local documentation directory
and the local source directory, regardless of build success (the doc
command's result `r` is arbitrary in the final conjunct); failures of
the two LOCAL removals are propagated as errors, while a failure of the
sandbox build-directory removal command is ignored. -/
theorem C7_cleanup (env : BuildEnv) (opts : DocBuilderOptions)
    (name version : String) (r : CmdRes) (b : DocBuilder)
    (hsl : b.options.skip_if_log_exists = false)
    (hse : b.options.skip_if_exists = false) :
    (env.removeDocDirOk = true → env.removeSrcDirOk = true →
        clean env opts name version =
          (Except.ok (), [Effect.sandbox (Cmd.rmBuildDir (canonical_name name version)),
                          Effect.fsRemove (docDstPath opts name version),
                          Effect.fsRemove (srcDirPath opts name version)]))
    ∧ (env.removeDocDirOk = false →
        (clean env opts name version).1 = Except.error DBErr.io)
    ∧ (env.removeDocDirOk = true → env.removeSrcDirOk = false →
        (clean env opts name version).1 = Except.error DBErr.io)
    ∧ build_package (envCleanBuild r) b name version =
        some (Except.ok r.isOk,
              { b with cache := insert (canonical_name name version) b.cache },
              fullCleanTrace b.options name version) := by
  refine ⟨?_, ?_, ?_, ?_⟩
  · intro h1 h2
    simp [clean, remove_build_dir, h1, h2]
  · intro h1
    simp [clean, remove_build_dir, h1]
  · intro h1 h2
    simp [clean, remove_build_dir, h1, h2]
  · cases r <;>
      simp [build_package, envCleanBuild, envAllOk, hsl, hse,
        build_package_in_chroot, get_versions, add_sources_into_database, docStep,
        clean, remove_build_dir, fullCleanTrace, CmdRes.isOk]

/-- C7 witness: the cleanup theorem applied at concrete inputs — once
with both local removals succeeding, once with a failed doc build still
reaching the three removals. -/
theorem C7_witness :
    clean envAllOk optsSkipLog "foo" "0.1.0" =
        (Except.ok (), [Effect.sandbox (Cmd.rmBuildDir (canonical_name "foo" "0.1.0")),
                        Effect.fsRemove (docDstPath optsSkipLog "foo" "0.1.0"),
                        Effect.fsRemove (srcDirPath optsSkipLog "foo" "0.1.0")])
    ∧ build_package (envCleanBuild (CmdRes.err "boom")) bNoSkip "foo" "0.1.0" =
        some (Except.ok (CmdRes.err "boom").isOk,
              { bNoSkip with cache := insert (canonical_name "foo" "0.1.0") bNoSkip.cache },
              fullCleanTrace bNoSkip.options "foo" "0.1.0") :=
  ⟨(C7_cleanup envAllOk optsSkipLog "foo" "0.1.0" (CmdRes.ok "x") bNoSkip rfl rfl).1 rfl rfl,
   (C7_cleanup envAllOk optsSkipLog "foo" "0.1.0" (CmdRes.err "boom") bNoSkip rfl
      rfl).2.2.2⟩

/-- `build_package` never removes entries from the local cache: the
resulting builder's cache contains the initial one. -/
theorem build_package_cache_mono (env : BuildEnv) (b : DocBuilder)
    (name version : String) (r : Except DBErr Bool) (b1 : DocBuilder)
    (effs : List Effect)
    (h : build_package env b name version = some (r, b1, effs)) :
    b.cache ⊆ b1.cache := by
  unfold build_package at h
  repeat'
    first
      | exact Option.noConfusion h
      | (cases h; exact Finset.Subset.refl _)
      | (cases h; exact Finset.subset_insert _ _)
      | split at h
      | simp only [] at h

/-- The cache only grows along `build_world_list`. -/
theorem build_world_list_mono (envf : String → String → BuildEnv)
    (pkgs : List (String × String)) :
    ∀ (b : DocBuilder) (count : Nat) (bf : DocBuilder) (cf : Nat),
      build_world_list envf pkgs b count = some (bf, cf) → b.cache ⊆ bf.cache := by
  induction pkgs with
  | nil =>
    intro b count bf cf h
    cases h
    exact Finset.Subset.refl _
  | cons p rest ih =>
    intro b count bf cf h
    obtain ⟨n, v⟩ := p
    unfold build_world_list at h
    cases hb : build_package (envf n v) b n v with
    | none =>
      rw [hb] at h
      exact Option.noConfusion h
    | some t =>
      obtain ⟨r, b1, effs⟩ := t
      rw [hb] at h
      have h1 : b.cache ⊆ b1.cache := build_package_cache_mono _ _ _ _ _ _ _ hb
      have h2 : b1.cache ⊆ insert (canonical_name n v) b1.cache := Finset.subset_insert _ _
      exact h1.trans (h2.trans (ih _ _ _ _ h))

/-- Every package processed by the `build_world` loop ends up in the
final local cache. -/
theorem build_world_list_mem (envf : String → String → BuildEnv)
    (pkgs : List (String × String)) :
    ∀ (b : DocBuilder) (count : Nat) (bf : DocBuilder) (cf : Nat)
      (name version : String),
      build_world_list envf pkgs b count = some (bf, cf) →
      (name, version) ∈ pkgs → canonical_name name version ∈ bf.cache := by
  induction pkgs with
  | nil =>
    intro b count bf cf name version h hm
    cases hm
  | cons p rest ih =>
    intro b count bf cf name version h hm
    obtain ⟨n, v⟩ := p
    unfold build_world_list at h
    cases hb : build_package (envf n v) b n v with
    | none =>
      rw [hb] at h
      exact Option.noConfusion h
    | some t =>
      obtain ⟨r, b1, effs⟩ := t
      rw [hb] at h
      rcases List.mem_cons.mp hm with heq | hmem
      · obtain ⟨rfl, rfl⟩ := Prod.mk.injEq name version n v ▸ And.intro (congrArg Prod.fst heq) (congrArg Prod.snd heq)
        have hins : canonical_name name version ∈ insert (canonical_name name version) b1.cache :=
          Finset.mem_insert_self _ _
        exact (build_world_list_mono envf rest _ _ _ _ h) hins
      · exact ih _ _ _ _ _ _ h hmem

/-- C10: after the top-level build-every-package loop, every processed
package identity is in the local cache — also when its `build_package`
returned an error — so with `skip_if_log_exists` set it is not retried
in the same process lifetime. -/
theorem C10_errored_package_logged (updOk : Bool)
    (envf : String → String → BuildEnv) (pkgs : List (String × String))
    (b bf : DocBuilder) (name version : String)
    (h : build_world updOk envf pkgs b = some (Except.ok bf))
    (hm : (name, version) ∈ pkgs) :
    canonical_name name version ∈ bf.cache := by
  unfold build_world at h
  split at h
  · exact absurd h (by simp)
  · obtain ⟨⟨b1, c1⟩, hw, heq⟩ := Option.map_eq_some'.mp h
    have hbf : b1 = bf := by
      simpa using heq
    subst hbf
    exact build_world_list_mem envf pkgs _ _ _ _ _ _ hw hm

/-- Per-package environment whose database connection always fails, so
every `build_package` call errors. -/
def envfConnFail : String → String → BuildEnv :=
  fun _ _ => { envAllOk with connectOk := false }

/-- C10 witness: a package whose build attempt errors (database
connection failure) is nevertheless inserted into the local cache by
the loop. -/
theorem C10_witness :
    canonical_name "foo" "0.1.0" ∈
      ({ bNoSkip with cache := insert (canonical_name "foo" "0.1.0") bNoSkip.cache }
        : DocBuilder).cache :=
  C10_errored_package_logged true envfConnFail [("foo", "0.1.0")] bNoSkip
    { bNoSkip with cache := insert (canonical_name "foo" "0.1.0") bNoSkip.cache }
    "foo" "0.1.0" rfl (by decide)

/-- C8: when the build step of an iteration panics (and engaging the
lock itself succeeds), the worker logs the fault at the highest severity
and engages the cooperative lock, and the loop continues (the iteration
yields a next state instead of killing the process; a subsequent
iteration that observes the engaged lock transitions to `Locked`);
an ordinary returned error is only reported — no lock engagement, no
grave log — and the loop continues normally. -/
theorem C8_panic_supervision (env env2 : QueueEnv) (st st2 : BuilderState) (n : Nat)
    (hl : env.isLocked = false) (hq : env.pendingCount = Except.ok (n + 1)) :
    (env.buildOutcome = BuildStepOutcome.panicked → env.lockOk = true →
        iteration env st =
          some (BuilderState.QueueInProgress,
                baseActs env st ++ [WorkerAction.logGrave, WorkerAction.engageLock]))
    ∧ (env.buildOutcome = BuildStepOutcome.err →
        iteration env st =
          some (BuilderState.QueueInProgress, baseActs env st ++ [WorkerAction.reportBuildError]))
    ∧ WorkerAction.engageLock ∉ baseActs env st
    ∧ WorkerAction.logGrave ∉ baseActs env st
    ∧ (env2.isLocked = true →
        iteration env2 st2 = some (BuilderState.Locked, baseActs env2 st2 ++ [WorkerAction.warnLocked])) := by
  refine ⟨?_, ?_, ?_, ?_, ?_⟩
  · intro hb hlock
    simp [iteration, hl, hq, hb, hlock]
  · intro hb
    simp [iteration, hl, hq, hb]
  · unfold baseActs
    cases hrt : env.removeTempdirsOk <;> cases st <;> decide
  · unfold baseActs
    cases hrt : env.removeTempdirsOk <;> cases st <;> decide
  · intro hlk
    simp [iteration, hlk]

/-- The observation environment of an iteration whose build step
panics. -/
def envPanic : QueueEnv :=
  { removeTempdirsOk := true
    isLocked := false
    pendingCount := Except.ok 1
    buildOutcome := BuildStepOutcome.panicked
    lockOk := true }

/-- C8 witness: the supervision theorem applied at a concrete panicking
iteration from the `Fresh` state. -/
theorem C8_witness :
    iteration envPanic BuilderState.Fresh =
        some (BuilderState.QueueInProgress,
              baseActs envPanic BuilderState.Fresh
                ++ [WorkerAction.logGrave, WorkerAction.engageLock])
    ∧ WorkerAction.engageLock ∉ baseActs envPanic BuilderState.Fresh :=
  ⟨(C8_panic_supervision envPanic envPanic BuilderState.Fresh BuilderState.Fresh 0
      rfl rfl).1 rfl rfl,
   (C8_panic_supervision envPanic envPanic BuilderState.Fresh BuilderState.Fresh 0
      rfl rfl).2.2.1⟩
